import Mathlib

/-!
# Verification of the Nature herd simulation core

Shallow embedding of the terrain generator (`src/utils/terrain.js`), the
noise helpers (`src/utils/math.js`), the sheep flock simulation
(`src/components/Herd.jsx`) and the dog state machine (`src/components/Dog.jsx`).

JavaScript doubles are modelled as real numbers (`ℝ`) where the code uses
`Math.sqrt` / `Math.pow` / `Math.atan2`, and as rationals (`ℚ`) where all
operations stay rational (grid bucketing, confidence clamping, the
write-back tail of the sheep tick).  The simplex-noise primitive
`noise2D` is an unknown seeded function, so every terrain definition is
parameterized by an arbitrary `noise : ℝ → ℝ → ℝ`.
-/

namespace Nature

/-- `clamp` from `src/utils/math.js`: `Math.max(min, Math.min(max, value))`, over `ℝ`. -/
noncomputable def clampR (value lo hi : ℝ) : ℝ := max lo (min hi value)

/-- `clamp` from `src/utils/math.js`, over `ℚ` (used by the rational fragments). -/
def clampQ (value lo hi : ℚ) : ℚ := max lo (min hi value)

/-- Modelled from the spec: the `smoothstep` helper is imported by
`src/utils/terrain.js` from `./math` but its definition is not under `src/`.
The spec calls the path blending "smoothstep blending" / "a smoother step",
i.e. the standard `smoothstep(x, min, max)` of `THREE.MathUtils`:
normalize `x` into `[0,1]` between the edges and apply `t*t*(3-2t)`. -/
noncomputable def smoothstepJS (x lo hi : ℝ) : ℝ :=
  if x ≤ lo then 0
  else if x ≥ hi then 1
  else
    let t := (x - lo) / (hi - lo)
    t * t * (3 - 2 * t)

/-- Length of a 2-component vector `(x, 0, z)` (`THREE.Vector3.length` with `y = 0`). -/
noncomputable def vlen (x z : ℝ) : ℝ := Real.sqrt (x ^ 2 + z ^ 2)

/-- `THREE.Vector3.normalize` restricted to the XZ plane:
`divideScalar(length || 1)`, so the zero vector is left unchanged. -/
noncomputable def vnormalize (x z : ℝ) : ℝ × ℝ :=
  let l := vlen x z
  let d := if l = 0 then 1 else l
  (x / d, z / d)

/-- `Math.atan2 y x`, via the complex argument (`atan2 0 0 = 0`, as in JS). -/
noncomputable def atan2 (y x : ℝ) : ℝ := Complex.arg ⟨x, y⟩

/-- Loop body of `fbm` from `src/utils/math.js`, unrolled front-first:
`fbmAux noise x z p l n freq amp` returns the pair
`(total, maxValue)` accumulated by `n` further iterations starting at
frequency `freq` and amplitude `amp`. -/
noncomputable def fbmAux (noise : ℝ → ℝ → ℝ) (x z p l : ℝ) :
    ℕ → ℝ → ℝ → ℝ × ℝ
  | 0, _, _ => (0, 0)
  | n + 1, freq, amp =>
    let rest := fbmAux noise x z p l n (freq * l) (amp * p)
    (noise (x * freq) (z * freq) * amp + rest.1, amp + rest.2)

/-- `fbm` from `src/utils/math.js`: sum `octaves` layers of `noise` with
geometric frequency/amplitude progression, divided by the amplitude sum. -/
noncomputable def fbm (noise : ℝ → ℝ → ℝ) (x z : ℝ) (octaves : ℕ)
    (persistence lacunarity : ℝ) : ℝ :=
  let r := fbmAux noise x z persistence lacunarity octaves 1 1
  r.1 / r.2

lemma fbmAux_abs_le (noise : ℝ → ℝ → ℝ) (x z p l : ℝ)
    (hn : ∀ a b, |noise a b| ≤ 1) (hp : 0 < p) :
    ∀ (n : ℕ) (freq amp : ℝ), 0 < amp →
      |(fbmAux noise x z p l n freq amp).1| ≤ (fbmAux noise x z p l n freq amp).2 ∧
      (n ≠ 0 → amp ≤ (fbmAux noise x z p l n freq amp).2) := by
  intro n
  induction n with
  | zero => intro freq amp _; simp [fbmAux]
  | succ m ih =>
    intro freq amp hamp
    have hrec := ih (freq * l) (amp * p) (mul_pos hamp hp)
    constructor
    · have h1 : |noise (x * freq) (z * freq) * amp| ≤ amp := by
        rw [abs_mul, abs_of_pos hamp]
        calc |noise (x * freq) (z * freq)| * amp ≤ 1 * amp := by
              exact mul_le_mul_of_nonneg_right (hn _ _) hamp.le
          _ = amp := one_mul amp
      calc |(fbmAux noise x z p l (m + 1) freq amp).1|
          = |noise (x * freq) (z * freq) * amp +
              (fbmAux noise x z p l m (freq * l) (amp * p)).1| := by
            simp [fbmAux]
        _ ≤ |noise (x * freq) (z * freq) * amp| +
              |(fbmAux noise x z p l m (freq * l) (amp * p)).1| := abs_add _ _
        _ ≤ amp + (fbmAux noise x z p l m (freq * l) (amp * p)).2 :=
            add_le_add h1 hrec.1
        _ = (fbmAux noise x z p l (m + 1) freq amp).2 := by simp [fbmAux]
    · intro _
      have h2 : 0 ≤ (fbmAux noise x z p l m (freq * l) (amp * p)).2 :=
        le_trans (abs_nonneg _) hrec.1
      calc amp ≤ amp + (fbmAux noise x z p l m (freq * l) (amp * p)).2 :=
            le_add_of_nonneg_right h2
        _ = (fbmAux noise x z p l (m + 1) freq amp).2 := by simp [fbmAux]

/-- **C4.** Bounded `noise` plus positive persistence keep `fbm` inside `[-1, 1]`
for every octave count `≥ 1` and every lacunarity, because the octave sum is
divided by the accumulated amplitude sum. -/
theorem fbm_mem_Icc (noise : ℝ → ℝ → ℝ) (x z : ℝ) (octaves : ℕ)
    (persistence lacunarity : ℝ)
    (hn : ∀ a b, |noise a b| ≤ 1) (ho : 1 ≤ octaves) (hp : 0 < persistence) :
    -1 ≤ fbm noise x z octaves persistence lacunarity ∧
      fbm noise x z octaves persistence lacunarity ≤ 1 := by
  have h := fbmAux_abs_le noise x z persistence lacunarity hn hp octaves 1 1 one_pos
  have hm : (0 : ℝ) < (fbmAux noise x z persistence lacunarity octaves 1 1).2 :=
    lt_of_lt_of_le one_pos (h.2 (by omega))
  have habs : |fbm noise x z octaves persistence lacunarity| ≤ 1 := by
    rw [fbm, abs_div, abs_of_pos hm]
    exact div_le_one_of_le₀ h.1 hm.le
  exact abs_le.mp habs

/-- Witness for C4 at the constant-zero noise, one octave, persistence `1/2`. -/
theorem fbm_mem_Icc_witness :
    -1 ≤ fbm (fun _ _ => 0) 0 0 1 (1 / 2) 2 ∧
      fbm (fun _ _ => 0) 0 0 1 (1 / 2) 2 ≤ 1 :=
  fbm_mem_Icc (fun _ _ => 0) 0 0 1 (1 / 2) 2
    (fun _ _ => by norm_num) le_rfl (by norm_num)

/-! ## Terrain field (`src/utils/terrain.js`) -/

/-- `FARM_CENTER_X` from `terrain.js`. -/
noncomputable def FARM_CENTER_X : ℝ := -200

/-- `FARM_CENTER_Z` from `terrain.js`. -/
noncomputable def FARM_CENTER_Z : ℝ := -100

/-- `FARM_HALF` from `terrain.js`. -/
noncomputable def FARM_HALF : ℝ := 70

/-- `FARM_HEIGHT` from `terrain.js`. -/
noncomputable def FARM_HEIGHT : ℝ := 5

/-- `GRASS_CENTER_X` from `terrain.js`. -/
noncomputable def GRASS_CENTER_X : ℝ := 150

/-- `GRASS_CENTER_Z` from `terrain.js`. -/
noncomputable def GRASS_CENTER_Z : ℝ := 150

/-- `GRASS_RADIUS_EST` from `terrain.js`. -/
noncomputable def GRASS_RADIUS_EST : ℝ := 80

/-- `MAX_HEIGHT` from `terrain.js`. -/
noncomputable def MAX_HEIGHT : ℝ := 60

/-- `PATH_START` (XZ components): `(FARM_CENTER_X, FARM_CENTER_Z + FARM_HALF)`. -/
noncomputable def PATH_START_X : ℝ := FARM_CENTER_X

/-- Z component of `PATH_START`. -/
noncomputable def PATH_START_Z : ℝ := FARM_CENTER_Z + FARM_HALF

/-- `PATH_DIRECTION_TO_GRASS`: the normalized farm-entrance-to-grassland vector. -/
noncomputable def PATH_DIR_TO_GRASS : ℝ × ℝ :=
  vnormalize (GRASS_CENTER_X - PATH_START_X) (GRASS_CENTER_Z - PATH_START_Z)

/-- `PATH_GRASS_BUFFER = GRASS_RADIUS_EST * 0.75`. -/
noncomputable def PATH_GRASS_BUFFER : ℝ := GRASS_RADIUS_EST * 0.75

/-- X component of `PATH_END`. -/
noncomputable def PATH_END_X : ℝ := GRASS_CENTER_X - PATH_DIR_TO_GRASS.1 * PATH_GRASS_BUFFER

/-- Z component of `PATH_END`. -/
noncomputable def PATH_END_Z : ℝ := GRASS_CENTER_Z - PATH_DIR_TO_GRASS.2 * PATH_GRASS_BUFFER

/-- `PATH_LENGTH = |PATH_END - PATH_START|`. -/
noncomputable def PATH_LENGTH : ℝ := vlen (PATH_END_X - PATH_START_X) (PATH_END_Z - PATH_START_Z)

/-- `PATH_DIRECTION = normalize(PATH_END - PATH_START)`. -/
noncomputable def PATH_DIRECTION : ℝ × ℝ :=
  vnormalize (PATH_END_X - PATH_START_X) (PATH_END_Z - PATH_START_Z)

/-- `PATH_WIDTH` (terrain flatten width). -/
noncomputable def PATH_WIDTH : ℝ := 20

/-- `PATH_WIDTH_BIOME` (visual path width). -/
noncomputable def PATH_WIDTH_BIOME : ℝ := 12

/-- The raw (unclamped) projection `_pathToPoint.dot(PATH_DIRECTION)` of the
point `(x, z)` onto the path direction; `terrain.js` reuses this scratch value
at line 112 for `progressAlongPath`. -/
noncomputable def pathDot (x z : ℝ) : ℝ :=
  (x - PATH_START_X) * PATH_DIRECTION.1 + (z - PATH_START_Z) * PATH_DIRECTION.2

/-- `distanceToMainPath` from `terrain.js`: distance from `(x, z)` to the closest
point of the segment `PATH_START → PATH_END`. -/
noncomputable def distanceToMainPath (x z : ℝ) : ℝ :=
  let projDist := clampR (pathDot x z) 0 PATH_LENGTH
  let cx := PATH_START_X + PATH_DIRECTION.1 * projDist
  let cz := PATH_START_Z + PATH_DIRECTION.2 * projDist
  vlen (x - cx) (z - cz)

/-- `getGrassRadiusAt` from `terrain.js`: organic grassland radius at the angle
of `(x, z)` seen from the grass center, clamped to `[55, 110]`. -/
noncomputable def getGrassRadiusAt (noise : ℝ → ℝ → ℝ) (x z : ℝ) : ℝ :=
  let angle := atan2 (z - GRASS_CENTER_Z) (x - GRASS_CENTER_X)
  let radiusNoise := noise (angle * 3) 0 * 24
  clampR (GRASS_RADIUS_EST + radiusNoise) 55 110

/-- `getTerrainHeight` from `terrain.js`: ridged fbm base plus height-scaled
roughness, then the farm flatten, grassland blend, main-path blend and
fork-path blend, in source order. -/
noncomputable def getTerrainHeight (noise : ℝ → ℝ → ℝ) (x z : ℝ) : ℝ :=
  let rawNoise := fbm noise (x * 0.002) (z * 0.002) 5 0.5 2
  let base := |rawNoise| ^ (1.2 : ℝ) * MAX_HEIGHT
  let roughness := noise (x * 0.02) (z * 0.02) * 2
  let y0 := base + roughness * clampR (base / 10) 0.2 1.0
  let dxFarm := |x - FARM_CENTER_X|
  let dzFarm := |z - FARM_CENTER_Z|
  let y1 :=
    if dxFarm < FARM_HALF ∧ dzFarm < FARM_HALF then FARM_HEIGHT
    else
      let farmPlaneRadius := FARM_HALF * 1.5
      let distToFarmCenter := Real.sqrt (dxFarm ^ 2 + dzFarm ^ 2)
      if distToFarmCenter < farmPlaneRadius then
        let blendFactor := clampR ((distToFarmCenter - FARM_HALF) / (farmPlaneRadius - FARM_HALF)) 0 1
        y0 * blendFactor + FARM_HEIGHT * (1 - blendFactor)
      else y0
  let grassRadius := getGrassRadiusAt noise x z
  let distToGrass := Real.sqrt ((x - GRASS_CENTER_X) ^ 2 + (z - GRASS_CENTER_Z) ^ 2)
  let y2 :=
    if distToGrass < grassRadius then
      let t := min 1 (distToGrass / grassRadius)
      let undulation := noise (x * 0.05) (z * 0.05) * 5
      let targetH := 20 + undulation
      y1 * t + targetH * (1 - t)
    else y1
  let distToFarmPath := distanceToMainPath x z
  let y3 :=
    if distToFarmPath < PATH_WIDTH then
      let t := smoothstepJS distToFarmPath 0 PATH_WIDTH
      let progressAlongPath := clampR (pathDot x z / PATH_LENGTH) 0 1
      let targetPathHeight := FARM_HEIGHT + (20 - FARM_HEIGHT) * progressAlongPath
      let pathTexture := noise (x * 0.1) (z * 0.1) * 0.3
      y2 * t + (targetPathHeight + pathTexture) * (1 - t)
    else y2
  let y4 :=
    if x < 20 ∧ z > -20 then
      let forkPathNoise := noise (z * 0.015 + 50) (x * 0.015 + 50) * 30
      let distToForkPath := |x + z - 50 + forkPathNoise| / Real.sqrt 2
      if distToForkPath < 10 then
        let t := smoothstepJS distToForkPath 0 10
        let forkTargetH := y3 * 0.8
        y3 * t + forkTargetH * (1 - t)
      else y3
    else y3
  y4

/-- The biome labels returned by `getBiome` in `terrain.js`. -/
inductive Biome
  | snow
  | path
  | lushGrass
  | farmDirt
  | snowForest
  | plains
  | snowPlains
  deriving DecidableEq

/-- `getBiome` from `terrain.js`.  The source's nested fork-path check
(`if (x < 20 && z > -20) { ... if (distToForkPath < 8) return 'path'; }`)
is flattened into a single conjunction, which is equivalent because the
nested block has no other effect. -/
noncomputable def getBiome (noise : ℝ → ℝ → ℝ) (x z height : ℝ) : Biome :=
  if height > 30 then .snow
  else if distanceToMainPath x z < PATH_WIDTH_BIOME then .path
  else if x < 20 ∧ z > -20 ∧
      |x + z - 50 + noise (z * 0.015 + 50) (x * 0.015 + 50) * 30| / Real.sqrt 2 < 8 then .path
  else if Real.sqrt ((x - GRASS_CENTER_X) ^ 2 + (z - GRASS_CENTER_Z) ^ 2) <
      getGrassRadiusAt noise x z - 5 then .lushGrass
  else if |x - FARM_CENTER_X| < FARM_HALF - 2 ∧ |z - FARM_CENTER_Z| < FARM_HALF - 2 then .farmDirt
  else
    let moisture := noise (x * 0.005 + 100) (z * 0.005 + 100)
    if moisture > 0.3 then .snowForest
    else if moisture < -0.2 then .plains
    else .snowPlains

/-! ### Path geometry facts -/

lemma sqrt_ge_of_sq_le (a b : ℝ) (ha : 0 ≤ a) (h : a ^ 2 ≤ b) : a ≤ Real.sqrt b := by
  calc a = Real.sqrt (a ^ 2) := (Real.sqrt_sq ha).symm
    _ ≤ Real.sqrt b := Real.sqrt_le_sqrt h

lemma sqrt_le_of_le_sq (a b : ℝ) (hb : 0 ≤ b) (h : a ≤ b ^ 2) : Real.sqrt a ≤ b := by
  calc Real.sqrt a ≤ Real.sqrt (b ^ 2) := Real.sqrt_le_sqrt h
    _ = b := Real.sqrt_sq hb

lemma abs_le_vlen_left (a b : ℝ) : |a| ≤ vlen a b := by
  rw [vlen, ← Real.sqrt_sq_eq_abs]
  exact Real.sqrt_le_sqrt (by nlinarith [sq_nonneg b])

lemma abs_le_vlen_right (a b : ℝ) : |b| ≤ vlen a b := by
  rw [vlen, ← Real.sqrt_sq_eq_abs]
  exact Real.sqrt_le_sqrt (by nlinarith [sq_nonneg a])

lemma clampR_mem (v lo hi : ℝ) (h : lo ≤ hi) :
    lo ≤ clampR v lo hi ∧ clampR v lo hi ≤ hi :=
  ⟨le_max_left _ _, max_le h (min_le_left _ _)⟩

lemma clampR_of_nonpos (v hi : ℝ) (hv : v ≤ 0) (hhi : 0 ≤ hi) :
    clampR v 0 hi = 0 := by
  rw [clampR, min_eq_right (hv.trans hhi), max_eq_left hv]

lemma sqrt154900_pos : (0 : ℝ) < Real.sqrt 154900 :=
  Real.sqrt_pos.mpr (by norm_num)

lemma sqrt154900_gt_60 : (60 : ℝ) < Real.sqrt 154900 :=
  lt_of_lt_of_le (by norm_num) (sqrt_ge_of_sq_le 61 154900 (by norm_num) (by norm_num))

lemma sqrt154900_ge_350 : (350 : ℝ) ≤ Real.sqrt 154900 :=
  sqrt_ge_of_sq_le 350 154900 (by norm_num) (by norm_num)

lemma sqrt154900_le_394 : Real.sqrt 154900 ≤ 394 :=
  sqrt_le_of_le_sq 154900 394 (by norm_num) (by norm_num)

lemma PATH_DIR_TO_GRASS_eq :
    PATH_DIR_TO_GRASS = (350 / Real.sqrt 154900, 180 / Real.sqrt 154900) := by
  have hv : vlen (GRASS_CENTER_X - PATH_START_X) (GRASS_CENTER_Z - PATH_START_Z) =
      Real.sqrt 154900 := by
    rw [vlen]
    norm_num [GRASS_CENTER_X, GRASS_CENTER_Z, PATH_START_X, PATH_START_Z,
      FARM_CENTER_X, FARM_CENTER_Z, FARM_HALF]
  rw [PATH_DIR_TO_GRASS, vnormalize]
  simp only [hv, if_neg (ne_of_gt sqrt154900_pos)]
  norm_num [GRASS_CENTER_X, GRASS_CENTER_Z, PATH_START_X, PATH_START_Z,
    FARM_CENTER_X, FARM_CENTER_Z, FARM_HALF]

lemma path_end_sub_start :
    PATH_END_X - PATH_START_X = 350 * (1 - 60 / Real.sqrt 154900) ∧
    PATH_END_Z - PATH_START_Z = 180 * (1 - 60 / Real.sqrt 154900) := by
  rw [PATH_END_X, PATH_END_Z, PATH_DIR_TO_GRASS_eq]
  constructor
  · rw [GRASS_CENTER_X, PATH_START_X, FARM_CENTER_X, PATH_GRASS_BUFFER, GRASS_RADIUS_EST]
    ring
  · rw [GRASS_CENTER_Z, PATH_START_Z, FARM_CENTER_Z, FARM_HALF, PATH_GRASS_BUFFER,
      GRASS_RADIUS_EST]
    ring

lemma path_c_pos : (0 : ℝ) < 1 - 60 / Real.sqrt 154900 := by
  have h : (60 : ℝ) / Real.sqrt 154900 < 1 :=
    (div_lt_one sqrt154900_pos).mpr sqrt154900_gt_60
  linarith

lemma PATH_LENGTH_eq : PATH_LENGTH = Real.sqrt 154900 - 60 := by
  rw [PATH_LENGTH, path_end_sub_start.1, path_end_sub_start.2, vlen]
  have hc := path_c_pos
  have h1 : (350 * (1 - 60 / Real.sqrt 154900)) ^ 2 +
      (180 * (1 - 60 / Real.sqrt 154900)) ^ 2 =
      154900 * (1 - 60 / Real.sqrt 154900) ^ 2 := by ring
  rw [h1, Real.sqrt_mul (by norm_num), Real.sqrt_sq hc.le]
  have h60 : Real.sqrt 154900 * (60 / Real.sqrt 154900) = 60 := by
    field_simp
  rw [mul_sub, mul_one, h60]

lemma PATH_LENGTH_pos : (0 : ℝ) < PATH_LENGTH := by
  rw [PATH_LENGTH_eq]; linarith [sqrt154900_gt_60]

lemma PATH_LENGTH_le_334 : PATH_LENGTH ≤ 334 := by
  rw [PATH_LENGTH_eq]; linarith [sqrt154900_le_394]

lemma PATH_DIRECTION_eq :
    PATH_DIRECTION = (350 / Real.sqrt 154900, 180 / Real.sqrt 154900) := by
  have hc := path_c_pos
  have hS := sqrt154900_pos
  have hne : Real.sqrt 154900 - 60 ≠ 0 := by linarith [sqrt154900_gt_60]
  have hv : vlen (350 * (1 - 60 / Real.sqrt 154900)) (180 * (1 - 60 / Real.sqrt 154900)) =
      Real.sqrt 154900 - 60 := by
    have h := PATH_LENGTH_eq
    rw [PATH_LENGTH, path_end_sub_start.1, path_end_sub_start.2] at h
    exact h
  rw [PATH_DIRECTION, vnormalize]
  simp only [path_end_sub_start.1, path_end_sub_start.2, hv, if_neg hne]
  have hSc : Real.sqrt 154900 - 60 = Real.sqrt 154900 * (1 - 60 / Real.sqrt 154900) := by
    have h60 : Real.sqrt 154900 * (60 / Real.sqrt 154900) = 60 := by
      field_simp
    rw [mul_sub, mul_one, h60]
  rw [hSc, Prod.mk.injEq]
  constructor
  · exact mul_div_mul_right 350 (Real.sqrt 154900) (ne_of_gt hc)
  · exact mul_div_mul_right 180 (Real.sqrt 154900) (ne_of_gt hc)

lemma PATH_DIRECTION_1_nonneg : 0 ≤ PATH_DIRECTION.1 := by
  rw [PATH_DIRECTION_eq]
  exact div_nonneg (by norm_num) sqrt154900_pos.le

lemma PATH_DIRECTION_1_le_one : PATH_DIRECTION.1 ≤ 1 := by
  rw [PATH_DIRECTION_eq]
  exact (div_le_one sqrt154900_pos).mpr sqrt154900_ge_350

lemma PATH_DIRECTION_2_nonneg : 0 ≤ PATH_DIRECTION.2 := by
  rw [PATH_DIRECTION_eq]
  exact div_nonneg (by norm_num) sqrt154900_pos.le

/-- General X-side lower bound on the main-path distance: the closest path
point has `cx ≤ PATH_START_X + PATH_LENGTH`, so points far east stay far. -/
lemma distanceToMainPath_ge_east (x z : ℝ) :
    x - PATH_START_X - PATH_LENGTH ≤ distanceToMainPath x z := by
  rw [distanceToMainPath]
  have hproj := clampR_mem (pathDot x z) 0 PATH_LENGTH PATH_LENGTH_pos.le
  have hd1 : PATH_DIRECTION.1 * clampR (pathDot x z) 0 PATH_LENGTH ≤ PATH_LENGTH := by
    calc PATH_DIRECTION.1 * clampR (pathDot x z) 0 PATH_LENGTH
        ≤ 1 * clampR (pathDot x z) 0 PATH_LENGTH :=
          mul_le_mul_of_nonneg_right PATH_DIRECTION_1_le_one hproj.1
      _ = clampR (pathDot x z) 0 PATH_LENGTH := one_mul _
      _ ≤ PATH_LENGTH := hproj.2
  calc x - PATH_START_X - PATH_LENGTH
      ≤ x - (PATH_START_X + PATH_DIRECTION.1 * clampR (pathDot x z) 0 PATH_LENGTH) := by
        linarith
    _ ≤ |x - (PATH_START_X + PATH_DIRECTION.1 * clampR (pathDot x z) 0 PATH_LENGTH)| :=
        le_abs_self _
    _ ≤ vlen (x - (PATH_START_X + PATH_DIRECTION.1 * clampR (pathDot x z) 0 PATH_LENGTH))
          (z - (PATH_START_Z + PATH_DIRECTION.2 * clampR (pathDot x z) 0 PATH_LENGTH)) :=
        abs_le_vlen_left _ _

/-- General south-side lower bound: the closest path point has
`cz ≥ PATH_START_Z`, so points south of the path start stay far. -/
lemma distanceToMainPath_ge_south (x z : ℝ) :
    PATH_START_Z - z ≤ distanceToMainPath x z := by
  rw [distanceToMainPath]
  have hproj := clampR_mem (pathDot x z) 0 PATH_LENGTH PATH_LENGTH_pos.le
  have hd2 : 0 ≤ PATH_DIRECTION.2 * clampR (pathDot x z) 0 PATH_LENGTH :=
    mul_nonneg PATH_DIRECTION_2_nonneg hproj.1
  calc PATH_START_Z - z
      ≤ PATH_START_Z + PATH_DIRECTION.2 * clampR (pathDot x z) 0 PATH_LENGTH - z := by
        linarith
    _ ≤ |z - (PATH_START_Z + PATH_DIRECTION.2 * clampR (pathDot x z) 0 PATH_LENGTH)| := by
        rw [abs_sub_comm]
        exact le_abs_self _
    _ ≤ vlen (x - (PATH_START_X + PATH_DIRECTION.1 * clampR (pathDot x z) 0 PATH_LENGTH))
          (z - (PATH_START_Z + PATH_DIRECTION.2 * clampR (pathDot x z) 0 PATH_LENGTH)) :=
        abs_le_vlen_right _ _

/-! ### C3: the farm interior and the terrain height -/

/-- **C3 (amended).** Every point strictly inside the farm square whose
distance to the main path is at least `PATH_WIDTH = 20` has terrain height
exactly `FARM_HEIGHT = 5`: the farm flatten is hard-flat, the grassland and
fork blends never reach the farm square, but the main-path blend (which runs
after the farm flatten) can modify heights inside the square near the front
gate. -/
theorem farm_interior_flat (noise : ℝ → ℝ → ℝ) (x z : ℝ)
    (hx : |x - FARM_CENTER_X| < FARM_HALF) (hz : |z - FARM_CENTER_Z| < FARM_HALF)
    (hpath : ¬ distanceToMainPath x z < PATH_WIDTH) :
    getTerrainHeight noise x z = FARM_HEIGHT := by
  have hxv : x < -130 := by
    have := abs_lt.mp hx
    rw [FARM_CENTER_X] at this
    rw [FARM_HALF] at this
    linarith [this.2]
  have hzv : z < -30 := by
    have := abs_lt.mp hz
    rw [FARM_CENTER_Z] at this
    rw [FARM_HALF] at this
    linarith [this.2]
  have hgrass : ¬ Real.sqrt ((x - GRASS_CENTER_X) ^ 2 + (z - GRASS_CENTER_Z) ^ 2) <
      getGrassRadiusAt noise x z := by
    have hradius : getGrassRadiusAt noise x z ≤ 110 := by
      rw [getGrassRadiusAt]
      exact (clampR_mem _ 55 110 (by norm_num)).2
    have habs : (280 : ℝ) ≤ |x - GRASS_CENTER_X| := by
      rw [GRASS_CENTER_X, abs_sub_comm]
      rw [abs_of_pos (by linarith : (0:ℝ) < 150 - x)]
      linarith
    have hd : (280 : ℝ) ≤
        Real.sqrt ((x - GRASS_CENTER_X) ^ 2 + (z - GRASS_CENTER_Z) ^ 2) := by
      have h1 := abs_le_vlen_left (x - GRASS_CENTER_X) (z - GRASS_CENTER_Z)
      rw [vlen] at h1
      linarith
    linarith
  have hfork : ¬ (x < 20 ∧ z > -20) := by
    rintro ⟨-, hzz⟩
    linarith
  simp only [getTerrainHeight, if_pos (And.intro hx hz), if_neg hgrass,
    if_neg hpath, if_neg hfork]

/-- Witness for C3 at the farm center `(-200, -100)` with the zero noise. -/
theorem farm_interior_flat_witness :
    getTerrainHeight (fun _ _ => 0) (-200) (-100) = FARM_HEIGHT := by
  apply farm_interior_flat
  · norm_num [FARM_CENTER_X, FARM_HALF]
  · norm_num [FARM_CENTER_Z, FARM_HALF]
  · intro hlt
    have h := distanceToMainPath_ge_south (-200) (-100)
    have hPZ : PATH_START_Z = -30 := by
      norm_num [PATH_START_Z, FARM_CENTER_Z, FARM_HALF]
    rw [hPZ] at h
    rw [PATH_WIDTH] at hlt
    linarith

lemma pathDot_at_cex : pathDot (-200) (-31) = -(180 / Real.sqrt 154900) := by
  rw [pathDot, PATH_DIRECTION_eq]
  have h1 : PATH_START_X = -200 := by rw [PATH_START_X, FARM_CENTER_X]
  have h2 : PATH_START_Z = -30 := by
    norm_num [PATH_START_Z, FARM_CENTER_Z, FARM_HALF]
  rw [h1, h2]
  ring

lemma distanceToMainPath_at_cex : distanceToMainPath (-200) (-31) = 1 := by
  have hdotle : pathDot (-200) (-31) ≤ 0 := by
    rw [pathDot_at_cex]
    have : (0:ℝ) ≤ 180 / Real.sqrt 154900 := div_nonneg (by norm_num) sqrt154900_pos.le
    linarith
  have hproj : clampR (pathDot (-200) (-31)) 0 PATH_LENGTH = 0 :=
    clampR_of_nonpos _ _ hdotle PATH_LENGTH_pos.le
  rw [distanceToMainPath]
  simp only [hproj, mul_zero, add_zero]
  have h1 : PATH_START_X = -200 := by rw [PATH_START_X, FARM_CENTER_X]
  have h2 : PATH_START_Z = -30 := by
    norm_num [PATH_START_Z, FARM_CENTER_Z, FARM_HALF]
  rw [h1, h2, vlen]
  rw [show ((-200 : ℝ) - -200) ^ 2 + ((-31 : ℝ) - -30) ^ 2 = 1 by norm_num]
  exact Real.sqrt_one

/-- **C3 is false as stated**: the point `(-200, -31)` is strictly inside the
farm square, yet with the (admissible, `[-1,1]`-bounded) constant noise `1` the
main-path blend lifts `getTerrainHeight` above `FARM_HEIGHT = 5` there. -/
theorem farm_interior_flat_counterexample :
    |(-200 : ℝ) - FARM_CENTER_X| < FARM_HALF ∧
    |(-31 : ℝ) - FARM_CENTER_Z| < FARM_HALF ∧
    (∀ a b : ℝ, |(fun _ _ => (1:ℝ)) a b| ≤ 1) ∧
    getTerrainHeight (fun _ _ => 1) (-200) (-31) ≠ FARM_HEIGHT := by
  have hfx : |(-200 : ℝ) - FARM_CENTER_X| < FARM_HALF := by
    norm_num [FARM_CENTER_X, FARM_HALF]
  have hfz : |(-31 : ℝ) - FARM_CENTER_Z| < FARM_HALF := by
    norm_num [FARM_CENTER_Z, FARM_HALF]
  refine ⟨hfx, hfz, fun a b => by norm_num, ?_⟩
  have hgr : getGrassRadiusAt (fun _ _ => 1) (-200) (-31) = 104 := by
    rw [getGrassRadiusAt]
    rw [GRASS_RADIUS_EST, clampR]
    norm_num
  have hgrass : ¬ Real.sqrt (((-200:ℝ) - GRASS_CENTER_X) ^ 2 +
      ((-31:ℝ) - GRASS_CENTER_Z) ^ 2) < getGrassRadiusAt (fun _ _ => 1) (-200) (-31) := by
    rw [hgr, GRASS_CENTER_X, GRASS_CENTER_Z]
    rw [show ((-200 : ℝ) - 150) ^ 2 + ((-31 : ℝ) - 150) ^ 2 = 155261 by norm_num]
    have : (104 : ℝ) ≤ Real.sqrt 155261 :=
      sqrt_ge_of_sq_le 104 155261 (by norm_num) (by norm_num)
    linarith
  have hpath : distanceToMainPath (-200) (-31) < PATH_WIDTH := by
    rw [distanceToMainPath_at_cex, PATH_WIDTH]; norm_num
  have hfork : ¬ ((-200 : ℝ) < 20 ∧ (-31 : ℝ) > -20) := by norm_num
  have hprog : clampR (pathDot (-200) (-31) / PATH_LENGTH) 0 1 = 0 := by
    apply clampR_of_nonpos _ _ _ (by norm_num)
    apply div_nonpos_of_nonpos_of_nonneg
    · rw [pathDot_at_cex]
      have : (0:ℝ) ≤ 180 / Real.sqrt 154900 := div_nonneg (by norm_num) sqrt154900_pos.le
      linarith
    · exact PATH_LENGTH_pos.le
  have hss : smoothstepJS 1 0 20 = 29 / 4000 := by
    rw [smoothstepJS]
    norm_num
  simp only [getTerrainHeight, if_pos (And.intro hfx hfz), if_neg hgrass,
    if_pos hpath, if_neg hfork]
  rw [distanceToMainPath_at_cex, PATH_WIDTH, hss, hprog, FARM_HEIGHT]
  norm_num

/-! ### C5: biome containment -/

/-- **C5.** `lush_grass` points lie strictly within `getGrassRadiusAt - 5` of
the grassland center, and `farm_dirt` points lie strictly inside the
`FARM_HALF - 2` inset of the farm square. -/
theorem getBiome_containment (noise : ℝ → ℝ → ℝ) (x z height : ℝ) :
    (getBiome noise x z height = Biome.lushGrass →
      Real.sqrt ((x - GRASS_CENTER_X) ^ 2 + (z - GRASS_CENTER_Z) ^ 2) <
        getGrassRadiusAt noise x z - 5) ∧
    (getBiome noise x z height = Biome.farmDirt →
      |x - FARM_CENTER_X| < FARM_HALF - 2 ∧ |z - FARM_CENTER_Z| < FARM_HALF - 2) := by
  simp only [getBiome]
  split_ifs with h1 h2 h3 h4 h5 h6 h7 <;> simp_all

lemma getBiome_witness_lush :
    getBiome (fun _ _ => 0) 220 150 0 = Biome.lushGrass := by
  have hsnow : ¬ ((0:ℝ) > 30) := by norm_num
  have hpath : ¬ distanceToMainPath 220 150 < PATH_WIDTH_BIOME := by
    intro hlt
    have h := distanceToMainPath_ge_east 220 150
    have h1 : PATH_START_X = -200 := by rw [PATH_START_X, FARM_CENTER_X]
    rw [h1] at h
    have h334 := PATH_LENGTH_le_334
    rw [PATH_WIDTH_BIOME] at hlt
    linarith
  have hfork : ¬ ((220:ℝ) < 20 ∧ (150:ℝ) > -20 ∧
      |(220:ℝ) + 150 - 50 + (fun _ _ => (0:ℝ)) (150 * 0.015 + 50) (220 * 0.015 + 50) * 30| /
        Real.sqrt 2 < 8) := by
    rintro ⟨h, -, -⟩
    norm_num at h
  have hgrass : Real.sqrt (((220:ℝ) - GRASS_CENTER_X) ^ 2 + ((150:ℝ) - GRASS_CENTER_Z) ^ 2) <
      getGrassRadiusAt (fun _ _ => 0) 220 150 - 5 := by
    have hr : getGrassRadiusAt (fun _ _ => 0) 220 150 = 80 := by
      rw [getGrassRadiusAt]
      rw [GRASS_RADIUS_EST, clampR]
      norm_num
    rw [hr, GRASS_CENTER_X, GRASS_CENTER_Z]
    rw [show ((220:ℝ) - 150) ^ 2 + ((150:ℝ) - 150) ^ 2 = 70 ^ 2 by norm_num]
    rw [Real.sqrt_sq (by norm_num)]
    norm_num
  simp only [getBiome, if_neg hsnow, if_neg hpath, if_neg hfork, if_pos hgrass]

lemma getBiome_witness_farm :
    getBiome (fun _ _ => 0) (-200) (-100) 0 = Biome.farmDirt := by
  have hsnow : ¬ ((0:ℝ) > 30) := by norm_num
  have hpath : ¬ distanceToMainPath (-200) (-100) < PATH_WIDTH_BIOME := by
    intro hlt
    have h := distanceToMainPath_ge_south (-200) (-100)
    have h2 : PATH_START_Z = -30 := by
      norm_num [PATH_START_Z, FARM_CENTER_Z, FARM_HALF]
    rw [h2] at h
    rw [PATH_WIDTH_BIOME] at hlt
    linarith
  have hfork : ¬ ((-200:ℝ) < 20 ∧ (-100:ℝ) > -20 ∧
      |(-200:ℝ) + -100 - 50 + (fun _ _ => (0:ℝ)) (-100 * 0.015 + 50) (-200 * 0.015 + 50) * 30| /
        Real.sqrt 2 < 8) := by
    rintro ⟨-, h, -⟩
    norm_num at h
  have hgrass : ¬ Real.sqrt (((-200:ℝ) - GRASS_CENTER_X) ^ 2 +
      ((-100:ℝ) - GRASS_CENTER_Z) ^ 2) < getGrassRadiusAt (fun _ _ => 0) (-200) (-100) - 5 := by
    have hradius : getGrassRadiusAt (fun _ _ => 0) (-200) (-100) ≤ 110 := by
      rw [getGrassRadiusAt]
      exact (clampR_mem _ 55 110 (by norm_num)).2
    rw [GRASS_CENTER_X, GRASS_CENTER_Z]
    rw [show ((-200:ℝ) - 150) ^ 2 + ((-100:ℝ) - 150) ^ 2 = 185000 by norm_num]
    have : (105 : ℝ) ≤ Real.sqrt 185000 :=
      sqrt_ge_of_sq_le 105 185000 (by norm_num) (by norm_num)
    intro hlt
    linarith
  have hfarm : |(-200:ℝ) - FARM_CENTER_X| < FARM_HALF - 2 ∧
      |(-100:ℝ) - FARM_CENTER_Z| < FARM_HALF - 2 := by
    constructor
    · norm_num [FARM_CENTER_X, FARM_HALF]
    · norm_num [FARM_CENTER_Z, FARM_HALF]
  simp only [getBiome, if_neg hsnow, if_neg hpath, if_neg hfork, if_neg hgrass,
    if_pos hfarm]

/-- Witness for C5: a concrete `lush_grass` point `(220, 150)` and a concrete
`farm_dirt` point `(-200, -100)`, both under the zero noise. -/
theorem getBiome_containment_witness :
    Real.sqrt (((220:ℝ) - GRASS_CENTER_X) ^ 2 + ((150:ℝ) - GRASS_CENTER_Z) ^ 2) <
      getGrassRadiusAt (fun _ _ => 0) 220 150 - 5 ∧
    |(-200:ℝ) - FARM_CENTER_X| < FARM_HALF - 2 ∧
    |(-100:ℝ) - FARM_CENTER_Z| < FARM_HALF - 2 :=
  ⟨(getBiome_containment (fun _ _ => 0) 220 150 0).1 getBiome_witness_lush,
   (getBiome_containment (fun _ _ => 0) (-200) (-100) 0).2 getBiome_witness_farm⟩

/-! ## Spatial grid (`src/components/Herd.jsx`, `updateGrid` / `getNeighbors`)

Grid bucketing uses only `+`, `/` and `floor`, so sheep positions are
modelled as rational XZ pairs. -/

/-- `CELL_SIZE` from `Herd.jsx` (line 97). -/
def CELL_SIZE : ℚ := 20

/-- `BOUNDS_X` from `Herd.jsx` (half of `TERRAIN_SIZE_X`). -/
def BOUNDS_X : ℚ := 350

/-- `BOUNDS_Z` from `Herd.jsx` (half of `TERRAIN_SIZE_Z`). -/
def BOUNDS_Z : ℚ := 700

/-- `Math.floor((sheep.position.x + BOUNDS_X) / CELL_SIZE)`. -/
def gridCellX (x : ℚ) : ℤ := ⌊(x + BOUNDS_X) / CELL_SIZE⌋

/-- `Math.floor((sheep.position.z + BOUNDS_Z) / CELL_SIZE)`. -/
def gridCellZ (z : ℚ) : ℤ := ⌊(z + BOUNDS_Z) / CELL_SIZE⌋

/-- The cell key of a sheep position. -/
def gridCell (p : ℚ × ℚ) : ℤ × ℤ := (gridCellX p.1, gridCellZ p.2)

/-- Bucket contents of the rebuilt grid at `key`: `updateGrid` clears the map
and pushes the indices `0, …, count-1` in increasing order into the bucket of
their cell, so the bucket at `key` is exactly the increasing list of indices
whose position's cell is `key` (an absent key is the empty bucket). -/
def gridBucket (ps : List (ℚ × ℚ)) (key : ℤ × ℤ) : List ℕ :=
  (List.range ps.length).filter (fun i => gridCell (ps.getD i (0, 0)) = key)

/-- `getNeighbors` from `Herd.jsx` (lines 113–136): union the 3×3 block of
cells around the query sheep's cell, excluding the sheep itself.  The query is
taken against the same position snapshot the grid was rebuilt from; indices
stand in for the sheep objects the source collects. -/
def getNeighbors (ps : List (ℚ × ℚ)) (sheepIdx : ℕ) : List ℕ :=
  let gx := gridCellX (ps.getD sheepIdx (0, 0)).1
  let gz := gridCellZ (ps.getD sheepIdx (0, 0)).2
  ([-1, 0, 1] : List ℤ).flatMap fun dx =>
    ([-1, 0, 1] : List ℤ).flatMap fun dz =>
      (gridBucket ps (gx + dx, gz + dz)).filter (fun j => j ≠ sheepIdx)

lemma abs_lt_of_sq_lt_sq' (a c : ℚ) (hc : 0 ≤ c) (h : a ^ 2 < c ^ 2) : |a| < c := by
  rcases abs_cases a with ⟨ha, -⟩ | ⟨ha, -⟩ <;> nlinarith

lemma floor_dist_le_one (a b : ℚ) (h : |a - b| < 1) :
    ⌊a⌋ - ⌊b⌋ = -1 ∨ ⌊a⌋ - ⌊b⌋ = 0 ∨ ⌊a⌋ - ⌊b⌋ = 1 := by
  have h1 : a < b + 1 := by have := abs_lt.mp h; linarith [this.2]
  have h2 : b < a + 1 := by have := abs_lt.mp h; linarith [this.1]
  have h3 : ⌊a⌋ ≤ ⌊b⌋ + 1 := by
    have := Int.floor_le_floor h1.le
    rwa [show b + 1 = b + (1 : ℤ) by push_cast; ring, Int.floor_add_int] at this
  have h4 : ⌊b⌋ ≤ ⌊a⌋ + 1 := by
    have := Int.floor_le_floor h2.le
    rwa [show a + 1 = a + (1 : ℤ) by push_cast; ring, Int.floor_add_int] at this
  omega

lemma mem_getNeighbors_of_cell_close (ps : List (ℚ × ℚ)) (i j : ℕ)
    (hj : j < ps.length) (hij : j ≠ i)
    (hdx : gridCellX (ps.getD j (0, 0)).1 - gridCellX (ps.getD i (0, 0)).1 = -1 ∨
           gridCellX (ps.getD j (0, 0)).1 - gridCellX (ps.getD i (0, 0)).1 = 0 ∨
           gridCellX (ps.getD j (0, 0)).1 - gridCellX (ps.getD i (0, 0)).1 = 1)
    (hdz : gridCellZ (ps.getD j (0, 0)).2 - gridCellZ (ps.getD i (0, 0)).2 = -1 ∨
           gridCellZ (ps.getD j (0, 0)).2 - gridCellZ (ps.getD i (0, 0)).2 = 0 ∨
           gridCellZ (ps.getD j (0, 0)).2 - gridCellZ (ps.getD i (0, 0)).2 = 1) :
    j ∈ getNeighbors ps i := by
  rw [getNeighbors]
  simp only [List.mem_flatMap, List.mem_filter]
  refine ⟨gridCellX (ps.getD j (0, 0)).1 - gridCellX (ps.getD i (0, 0)).1, ?_,
    gridCellZ (ps.getD j (0, 0)).2 - gridCellZ (ps.getD i (0, 0)).2, ?_, ?_⟩
  · rcases hdx with h | h | h <;> rw [h] <;> decide
  · rcases hdz with h | h | h <;> rw [h] <;> decide
  · constructor
    · rw [gridBucket, List.mem_filter]
      refine ⟨List.mem_range.mpr hj, ?_⟩
      simp only [gridCell, Prod.mk.injEq, decide_eq_true_eq]
      omega
    · simp [hij]

/-- **C1.** After a grid rebuild, any two distinct sheep whose horizontal
squared distance is below `CELL_SIZE ^ 2` appear in each other's 3×3-block
neighbor query. -/
theorem grid_neighbors_complete (ps : List (ℚ × ℚ)) (i j : ℕ)
    (hi : i < ps.length) (hj : j < ps.length) (hij : i ≠ j)
    (hdist : ((ps.getD i (0, 0)).1 - (ps.getD j (0, 0)).1) ^ 2 +
             ((ps.getD i (0, 0)).2 - (ps.getD j (0, 0)).2) ^ 2 < CELL_SIZE ^ 2) :
    j ∈ getNeighbors ps i ∧ i ∈ getNeighbors ps j := by
  have hx : |(ps.getD i (0, 0)).1 - (ps.getD j (0, 0)).1| < 20 := by
    apply abs_lt_of_sq_lt_sq' _ _ (by norm_num)
    rw [CELL_SIZE] at hdist
    nlinarith [sq_nonneg ((ps.getD i (0, 0)).2 - (ps.getD j (0, 0)).2)]
  have hz : |(ps.getD i (0, 0)).2 - (ps.getD j (0, 0)).2| < 20 := by
    apply abs_lt_of_sq_lt_sq' _ _ (by norm_num)
    rw [CELL_SIZE] at hdist
    nlinarith [sq_nonneg ((ps.getD i (0, 0)).1 - (ps.getD j (0, 0)).1)]
  have hcx : |((ps.getD i (0, 0)).1 + BOUNDS_X) / CELL_SIZE -
      ((ps.getD j (0, 0)).1 + BOUNDS_X) / CELL_SIZE| < 1 := by
    rw [div_sub_div_same, CELL_SIZE]
    rw [show (ps.getD i (0, 0)).1 + BOUNDS_X - ((ps.getD j (0, 0)).1 + BOUNDS_X) =
        (ps.getD i (0, 0)).1 - (ps.getD j (0, 0)).1 by ring]
    rw [abs_div, abs_of_pos (by norm_num : (0:ℚ) < 20),
      div_lt_one (by norm_num : (0:ℚ) < 20)]
    exact hx
  have hcz : |((ps.getD i (0, 0)).2 + BOUNDS_Z) / CELL_SIZE -
      ((ps.getD j (0, 0)).2 + BOUNDS_Z) / CELL_SIZE| < 1 := by
    rw [div_sub_div_same, CELL_SIZE]
    rw [show (ps.getD i (0, 0)).2 + BOUNDS_Z - ((ps.getD j (0, 0)).2 + BOUNDS_Z) =
        (ps.getD i (0, 0)).2 - (ps.getD j (0, 0)).2 by ring]
    rw [abs_div, abs_of_pos (by norm_num : (0:ℚ) < 20),
      div_lt_one (by norm_num : (0:ℚ) < 20)]
    exact hz
  have hdxij : gridCellX (ps.getD i (0, 0)).1 - gridCellX (ps.getD j (0, 0)).1 = -1 ∨
      gridCellX (ps.getD i (0, 0)).1 - gridCellX (ps.getD j (0, 0)).1 = 0 ∨
      gridCellX (ps.getD i (0, 0)).1 - gridCellX (ps.getD j (0, 0)).1 = 1 := by
    simpa only [gridCellX] using floor_dist_le_one _ _ hcx
  have hdzij : gridCellZ (ps.getD i (0, 0)).2 - gridCellZ (ps.getD j (0, 0)).2 = -1 ∨
      gridCellZ (ps.getD i (0, 0)).2 - gridCellZ (ps.getD j (0, 0)).2 = 0 ∨
      gridCellZ (ps.getD i (0, 0)).2 - gridCellZ (ps.getD j (0, 0)).2 = 1 := by
    simpa only [gridCellZ] using floor_dist_le_one _ _ hcz
  constructor
  · exact mem_getNeighbors_of_cell_close ps i j hj (Ne.symm hij)
      (by omega) (by omega)
  · exact mem_getNeighbors_of_cell_close ps j i hi hij
      (by omega) (by omega)

/-- Witness for C1: two sheep at `(0,0)` and `(5,5)` (squared distance `50 < 400`)
see each other. -/
theorem grid_neighbors_complete_witness :
    1 ∈ getNeighbors [(0, 0), (5, 5)] 0 ∧ 0 ∈ getNeighbors [(0, 0), (5, 5)] 1 :=
  grid_neighbors_complete [(0, 0), (5, 5)] 0 1 (by norm_num) (by norm_num)
    (by norm_num) (by norm_num [CELL_SIZE])

/-! ## Confidence bounds (`Herd.jsx` lines 254 and 305) -/

/-- The flee-radius confidence decay, line 254:
`sheep.state.confidence = Math.max(0, sheep.state.confidence - delta * 1.5)`,
applied once per dog within the flee radius. -/
def fleeConfidenceDecay (c delta : ℚ) : ℚ := max 0 (c - delta * 1.5)

/-- The recovery clamp, line 305:
`sheep.state.confidence = clamp(sheep.state.confidence + delta * 0.1, 0, 1)`. -/
def confidenceRecovery (c delta : ℚ) : ℚ := clampQ (c + delta * 0.1) 0 1

/-- One tick's worth of confidence updates for a sheep: `k` dogs inside the
flee radius each apply the decay (the dog loop precedes the recovery in the
tick body), then the recovery clamp runs. -/
def confidenceTick (delta : ℚ) (k : ℕ) (c : ℚ) : ℚ :=
  confidenceRecovery ((fun a => fleeConfidenceDecay a delta)^[k] c) delta

/-- Confidence after a sequence of ticks, starting from the initial
`confidence: 1.0` (line 88); each tick supplies its `delta` and the number of
in-range dogs. -/
def confidenceRun (ticks : List (ℚ × ℕ)) : ℚ :=
  ticks.foldl (fun c t => confidenceTick t.1 t.2 c) 1

lemma confidenceTick_mem (delta : ℚ) (k : ℕ) (c : ℚ) :
    0 ≤ confidenceTick delta k c ∧ confidenceTick delta k c ≤ 1 := by
  rw [confidenceTick, confidenceRecovery, clampQ]
  constructor
  · exact le_max_left _ _
  · exact max_le (by norm_num) (min_le_left _ _)

lemma confidenceRun_aux (ticks : List (ℚ × ℕ)) :
    ∀ c : ℚ, 0 ≤ c → c ≤ 1 →
      0 ≤ ticks.foldl (fun c t => confidenceTick t.1 t.2 c) c ∧
      ticks.foldl (fun c t => confidenceTick t.1 t.2 c) c ≤ 1 := by
  induction ticks with
  | nil => intro c h0 h1; exact ⟨h0, h1⟩
  | cons t rest ih =>
    intro c _ _
    rw [List.foldl_cons]
    exact ih _ (confidenceTick_mem t.1 t.2 c).1 (confidenceTick_mem t.1 t.2 c).2

/-- **C2.** Starting from confidence `1.0`, after any sequence of ticks with
non-negative deltas and any number of in-range dogs per tick, the confidence
stays within `[0, 1]`. -/
theorem confidence_bounded (ticks : List (ℚ × ℕ)) (_hδ : ∀ t ∈ ticks, 0 ≤ t.1) :
    0 ≤ confidenceRun ticks ∧ confidenceRun ticks ≤ 1 := by
  rw [confidenceRun]
  exact confidenceRun_aux ticks 1 (by norm_num) le_rfl

/-- Witness for C2: two ticks, one with two in-range dogs. -/
theorem confidence_bounded_witness :
    0 ≤ confidenceRun [(1/60, 2), (7, 0)] ∧ confidenceRun [(1/60, 2), (7, 0)] ≤ 1 :=
  confidence_bounded [(1/60, 2), (7, 0)] (by norm_num)

/-! ## Integration tail of the sheep tick (`Herd.jsx` lines 333–375) -/

/-- A 3-component vector of reals (`THREE.Vector3`). -/
structure V3 where
  x : ℝ
  y : ℝ
  z : ℝ

/-- `FARM_GATE_HALF` from `terrain.js` (aliased `GATE_HALF` in `Herd.jsx`). -/
noncomputable def FARM_GATE_HALF : ℝ := 14

/-- `FARM_CORNER_OPEN` from `terrain.js`. -/
noncomputable def FARM_CORNER_OPEN : ℝ := 8

/-- Terrain constraint on the y coordinate, lines 333–338: exponential snap by
a quarter of the gap, then an instantaneous upward correction whenever the
result is below `groundHeight + 0.2`. -/
noncomputable def terrainConstrainY (y groundHeight : ℝ) : ℝ :=
  let terrainClearance : ℝ := 0.2
  let desiredY := groundHeight + terrainClearance
  let y1 := y + (desiredY - y) * 0.25
  if y1 < desiredY then desiredY else y1

/-- World-bounds velocity nudges, lines 341–344 (position is untouched). -/
noncomputable def boundsNudge (p v : V3) : V3 :=
  let vx1 := if p.x < -((BOUNDS_X : ℝ)) then v.x + 1 else v.x
  let vx2 := if p.x > ((BOUNDS_X : ℝ)) then vx1 - 1 else vx1
  let vz1 := if p.z < -((BOUNDS_Z : ℝ)) then v.z + 1 else v.z
  let vz2 := if p.z > ((BOUNDS_Z : ℝ)) then vz1 - 1 else vz1
  ⟨vx2, v.y, vz2⟩

/-- Farm-wall containment, lines 347–371: inside the farm square, if a wall
segment (not covered by a gate or corner opening) is hit, clamp x/z into the
buffered interior and damp the velocity by `0.25`; the y coordinate is never
modified. -/
noncomputable def farmWalls (p v : V3) : V3 × V3 :=
  if (p.x > FARM_CENTER_X - FARM_HALF ∧ p.x < FARM_CENTER_X + FARM_HALF) ∧
      (p.z > FARM_CENTER_Z - FARM_HALF ∧ p.z < FARM_CENTER_Z + FARM_HALF) then
    let wallBuffer : ℝ := 1.5
    let gateFrontOpen := |p.x - FARM_CENTER_X| ≤ FARM_GATE_HALF
    let gateBackOpen := |p.x - FARM_CENTER_X| ≤ FARM_GATE_HALF
    let gateLeftOpen := |p.z - FARM_CENTER_Z| ≤ FARM_GATE_HALF
    let gateRightOpen := |p.z - FARM_CENTER_Z| ≤ FARM_GATE_HALF
    let cornerFrontLeftOpen := |p.x - (FARM_CENTER_X - FARM_HALF)| < FARM_CORNER_OPEN ∧
      |p.z - (FARM_CENTER_Z + FARM_HALF)| < FARM_CORNER_OPEN
    let cornerFrontRightOpen := |p.x - (FARM_CENTER_X + FARM_HALF)| < FARM_CORNER_OPEN ∧
      |p.z - (FARM_CENTER_Z + FARM_HALF)| < FARM_CORNER_OPEN
    let cornerBackLeftOpen := |p.x - (FARM_CENTER_X - FARM_HALF)| < FARM_CORNER_OPEN ∧
      |p.z - (FARM_CENTER_Z - FARM_HALF)| < FARM_CORNER_OPEN
    let cornerBackRightOpen := |p.x - (FARM_CENTER_X + FARM_HALF)| < FARM_CORNER_OPEN ∧
      |p.z - (FARM_CENTER_Z - FARM_HALF)| < FARM_CORNER_OPEN
    let frontWall := p.z > FARM_CENTER_Z + FARM_HALF - wallBuffer ∧
      ¬ (gateFrontOpen ∨ cornerFrontLeftOpen ∨ cornerFrontRightOpen)
    let backWall := p.z < FARM_CENTER_Z - FARM_HALF + wallBuffer ∧
      ¬ (gateBackOpen ∨ cornerBackLeftOpen ∨ cornerBackRightOpen)
    let sideLeft := p.x < FARM_CENTER_X - FARM_HALF + wallBuffer ∧
      ¬ (gateLeftOpen ∨ cornerFrontLeftOpen ∨ cornerBackLeftOpen)
    let sideRight := p.x > FARM_CENTER_X + FARM_HALF - wallBuffer ∧
      ¬ (gateRightOpen ∨ cornerFrontRightOpen ∨ cornerBackRightOpen)
    if frontWall ∨ sideLeft ∨ sideRight ∨ backWall then
      (⟨clampR p.x (FARM_CENTER_X - FARM_HALF + wallBuffer) (FARM_CENTER_X + FARM_HALF - wallBuffer),
        p.y,
        clampR p.z (FARM_CENTER_Z - FARM_HALF + wallBuffer) (FARM_CENTER_Z + FARM_HALF - wallBuffer)⟩,
       ⟨v.x * 0.25, v.y * 0.25, v.z * 0.25⟩)
    else (p, v)
  else (p, v)

/-- The write-back tail of the sheep tick (everything that touches the
position after integration): the terrain constraint on y (333–338), the
bounds velocity nudges (341–344), and the farm walls (347–371); the result is
what lines 373–375 copy into the sheep's stored state.  `groundHeight` is the
terrain height sampled at the start-of-tick position (line 162). -/
noncomputable def sheepTickTail (p v : V3) (groundHeight : ℝ) : V3 × V3 :=
  let p1 : V3 := ⟨p.x, terrainConstrainY p.y groundHeight, p.z⟩
  let v1 := boundsNudge p1 v
  farmWalls p1 v1

lemma terrainConstrainY_ge (y groundHeight : ℝ) :
    groundHeight + 0.2 ≤ terrainConstrainY y groundHeight := by
  rw [terrainConstrainY]
  split_ifs with h
  · exact le_rfl
  · linarith [not_lt.mp h]

lemma farmWalls_preserves_y (p v : V3) : ((farmWalls p v).1).y = p.y := by
  simp only [farmWalls]
  split_ifs <;> rfl

/-- **C10.** At the end of every sheep tick, the written-back y position is at
least `getTerrainHeight(x0, z0) + 0.2`, where `(x0, z0)` is the start-of-tick
horizontal position the ground height was sampled at. -/
theorem sheep_writeback_above_terrain (noise : ℝ → ℝ → ℝ) (x0 z0 : ℝ) (p v : V3) :
    getTerrainHeight noise x0 z0 + 0.2 ≤
      ((sheepTickTail p v (getTerrainHeight noise x0 z0)).1).y := by
  rw [sheepTickTail]
  rw [farmWalls_preserves_y]
  exact terrainConstrainY_ge p.y (getTerrainHeight noise x0 z0)

/-! ## Grassland residency count (`Herd.jsx` lines 149, 521–523, 540) -/

/-- The per-sheep values of the tick that feed the counting guard at line 521:
the feeding flag, whether `getBiome` returned `lush_grass` at the sheep's
position (line 164), the distance to the sheep's graze target (line 263), and
the personal graze radius (line 171). -/
structure SheepTickView where
  feeding : Bool
  isInGrazingBiome : Bool
  distToGoal : ℚ
  grazeRadius : ℚ

/-- Line 521: `sheep.state.feeding && isInGrazingBiome && distToGoal < grazeRadius + 20`. -/
def countsInGrassland (s : SheepTickView) : Bool :=
  s.feeding && s.isInGrazingBiome && decide (s.distToGoal < s.grazeRadius + 20)

/-- `inGrasslandCount` accumulated over the tick's sheep loop (lines 149 and
521–523). -/
def inGrasslandCount (sheep : List SheepTickView) : ℕ :=
  (sheep.filter countsInGrassland).length

/-- Line 540: the value passed to `onSheepUpdate`. -/
def emittedSheepCount (sheep : List SheepTickView) : ℕ := inGrasslandCount sheep

/-- Follows the spec's words, for comparison with the code: "count of sheep
currently resident in the lush-grass biome within the capacity-gated zone",
with no reference to the behavior state. -/
def residentInZoneCount (sheep : List SheepTickView) : ℕ :=
  (sheep.filter (fun s => s.isInGrazingBiome && decide (s.distToGoal < s.grazeRadius + 20))).length

/-- **C8 is false as stated**: a roaming (non-feeding) sheep standing in the
lush-grass biome inside the zone is not counted by the code, so the emitted
count differs from the spec's resident count. -/
theorem emitted_count_counterexample :
    emittedSheepCount [⟨false, true, 0, 80⟩] = 0 ∧
    residentInZoneCount [⟨false, true, 0, 80⟩] = 1 := by
  have h : ((0 : ℚ) < 80 + 20) := by norm_num
  refine ⟨?_, ?_⟩
  · simp [emittedSheepCount, inGrasslandCount, countsInGrassland]
  · simp [residentInZoneCount, h]

/-- **C8 (amended).** The count emitted to the UI equals the number of
*feeding* sheep resident in the lush-grass biome within `grazeRadius + 20` of
their graze target; roaming sheep in the zone are not counted. -/
theorem emitted_count_eq_feeding_resident (sheep : List SheepTickView) :
    emittedSheepCount sheep = residentInZoneCount (sheep.filter (fun s => s.feeding)) := by
  rw [emittedSheepCount, inGrasslandCount, residentInZoneCount, List.filter_filter]
  congr 1
  apply List.filter_congr
  intro a _
  rw [countsInGrassland]
  cases a.feeding <;> cases a.isInGrazingBiome <;> simp

/-! ## The finiteness guard (`Herd.jsx` lines 138–141, 373–375) -/

/-- A JavaScript number, as far as finiteness is concerned: either a finite
value (modelled rational) or a non-finite one (`NaN`/`±Infinity`). -/
inductive JSNum
  | num (q : ℚ)
  | nonfinite
  deriving DecidableEq

/-- `Number.isFinite`. -/
def JSNum.isFinite : JSNum → Bool
  | num _ => true
  | nonfinite => false

/-- One sheep's position/velocity components at the start of a tick. -/
structure SheepPhase where
  px : JSNum
  py : JSNum
  pz : JSNum
  vx : JSNum
  vy : JSNum
  vz : JSNum

/-- All position/velocity components of the agent are finite. -/
def SheepPhase.allFinite (s : SheepPhase) : Bool :=
  s.px.isFinite && s.py.isFinite && s.pz.isFinite &&
  s.vx.isFinite && s.vy.isFinite && s.vz.isFinite

/-- Which agent indices get their state written back during one `useFrame`
tick of `Herd` (lines 138–550): the only finiteness guard is the whole-frame
early `return` at line 141, which tests `bodyMeshRef.current.position.x` (the
instanced-mesh render object's own position, not any agent's data); when that
guard passes, the loop writes back every agent unconditionally (lines
373–375) — there is no per-agent finiteness check anywhere in the loop body. -/
def frameWrittenIndices (guardX : JSNum) (count : ℕ) : List ℕ :=
  if guardX.isFinite then List.range count else []

/-- **C7 evaluated at the failing input**: with a finite guard value (the mesh
object's position stays `(0,0,0)` forever) and an agent 0 whose position.x is
non-finite, agent 0 is still written back — the code has no per-agent halt. -/
theorem nan_agent_still_written :
    (SheepPhase.allFinite ⟨JSNum.nonfinite, JSNum.num 0, JSNum.num 0,
        JSNum.num 0, JSNum.num 0, JSNum.num 0⟩) = false ∧
    frameWrittenIndices (JSNum.num 0) 2 = [0, 1] ∧
    (0 : ℕ) ∈ frameWrittenIndices (JSNum.num 0) 2 := by
  refine ⟨rfl, rfl, ?_⟩
  decide

/-! ## Dog state machine and movement (`src/components/Dog.jsx`) -/

/-- Componentwise vector sum. -/
noncomputable def v3add (a b : V3) : V3 := ⟨a.x + b.x, a.y + b.y, a.z + b.z⟩

/-- Componentwise vector difference. -/
noncomputable def v3sub (a b : V3) : V3 := ⟨a.x - b.x, a.y - b.y, a.z - b.z⟩

/-- Scalar multiple. -/
noncomputable def v3scale (k : ℝ) (v : V3) : V3 := ⟨k * v.x, k * v.y, k * v.z⟩

/-- `THREE.Vector3.length`. -/
noncomputable def vlen3 (v : V3) : ℝ := Real.sqrt (v.x ^ 2 + v.y ^ 2 + v.z ^ 2)

/-- `THREE.Vector3.distanceTo`. -/
noncomputable def v3dist (a b : V3) : ℝ := vlen3 (v3sub a b)

/-- `THREE.Vector3.normalize` (`divideScalar(length || 1)`). -/
noncomputable def v3normalize (v : V3) : V3 :=
  let l := vlen3 v
  let d := if l = 0 then 1 else l
  ⟨v.x / d, v.y / d, v.z / d⟩

/-- `THREE.Vector3.setLength s` (`normalize` then `multiplyScalar s`). -/
noncomputable def v3setLength (v : V3) (s : ℝ) : V3 := v3scale s (v3normalize v)

/-- `THREE.Vector3.clampLength lo hi`:
`setLength (clamp (length, lo, hi))`. -/
noncomputable def v3clampLength (v : V3) (lo hi : ℝ) : V3 :=
  v3setLength v (clampR (vlen3 v) lo hi)

/-- The three dog states (`Dog.jsx` line 30). -/
inductive DogState
  | idle
  | moving
  | autonomous
  deriving DecidableEq

/-- The progress trackers of an active command (`Dog.jsx` lines 32–34):
`commandTimer`, `lastCommandDistance` (null until the first MOVING tick) and
`stuckTimer`. -/
structure DogCmdProgress where
  commandTimer : ℝ
  lastCommandDistance : Option ℝ
  stuckTimer : ℝ

/-- The stuck-timer update of a MOVING tick (`Dog.jsx` lines 94–104): on the
first tick the tracker is only initialised; afterwards the timer accumulates
`delta` whenever the distance to the target decreased by less than `0.2`
since the previous tick, and resets to `0` otherwise. -/
noncomputable def stuckTimerAfter (s : DogCmdProgress) (dist delta : ℝ) : ℝ :=
  match s.lastCommandDistance with
  | none => s.stuckTimer
  | some last => if last - dist < 0.2 then s.stuckTimer + delta else 0

/-- The decision step of the `MOVING` state with an active target
(`Dog.jsx` lines 87–131): advance the command timer, update the progress
trackers, and transition to `AUTONOMOUS` (clearing the target and resetting
all trackers) when the target is reached (`dist < 5`), the command expired
(`> 7s`) or the command is stuck (`stuckTimer > 1.5`).  The `*0.65` velocity
damping applied on transition belongs to the movement physics, not to this
decision. -/
noncomputable def dogMovingDecision (pos target : V3) (s : DogCmdProgress) (delta : ℝ) :
    DogState × Option V3 × DogCmdProgress :=
  let commandTimer := s.commandTimer + delta
  let dist := v3dist pos target
  let stuckTimer := stuckTimerAfter s dist delta
  let reachedTarget := dist < 5
  let commandExpired := commandTimer > 7
  let commandStuck := stuckTimer > 1.5
  if reachedTarget ∨ commandExpired ∨ commandStuck then
    (DogState.autonomous, none, ⟨0, none, 0⟩)
  else
    (DogState.moving, some target, ⟨commandTimer, some dist, stuckTimer⟩)

lemma v3dist_self (p : V3) : v3dist p p = 0 := by
  simp [v3dist, v3sub, vlen3, Real.sqrt_eq_zero']

/-- **C6.** A MOVING dog with an active target transitions to `AUTONOMOUS`
(clearing its target) exactly when the target is reached (`dist < 5`), the
cumulative command time exceeds `7s`, or the updated stuck timer exceeds
`1.5s`; and a dog freshly commanded to its own position transitions on the
very next tick via the reached-target condition with the stuck condition
false. -/
theorem dog_moving_transition :
    (∀ (pos target : V3) (s : DogCmdProgress) (delta : ℝ),
      ((dogMovingDecision pos target s delta).1 = DogState.autonomous ∧
        (dogMovingDecision pos target s delta).2.1 = none) ↔
      (v3dist pos target < 5 ∨ s.commandTimer + delta > 7 ∨
        stuckTimerAfter s (v3dist pos target) delta > 1.5)) ∧
    (∀ (pos : V3) (delta : ℝ),
      dogMovingDecision pos pos ⟨0, none, 0⟩ delta =
        (DogState.autonomous, none, ⟨0, none, 0⟩) ∧
      v3dist pos pos < 5 ∧
      ¬ stuckTimerAfter ⟨0, none, 0⟩ (v3dist pos pos) delta > 1.5) := by
  constructor
  · intro pos target s delta
    rw [dogMovingDecision]
    split_ifs with h
    · simpa using h
    · simpa using h
  · intro pos delta
    have hdist : v3dist pos pos = 0 := v3dist_self pos
    have hstuck : stuckTimerAfter ⟨0, none, 0⟩ (v3dist pos pos) delta = 0 := by
      rw [stuckTimerAfter]
    refine ⟨?_, by rw [hdist]; norm_num, by rw [hstuck]; norm_num⟩
    rw [dogMovingDecision]
    rw [if_pos]
    exact Or.inl (by rw [hdist]; norm_num)

/-- Witness for C6: a dog at the origin commanded to the origin transitions to
`AUTONOMOUS` on the next tick. -/
theorem dog_moving_transition_witness :
    dogMovingDecision ⟨0, 0, 0⟩ ⟨0, 0, 0⟩ ⟨0, none, 0⟩ (1 / 60) =
      (DogState.autonomous, none, ⟨0, none, 0⟩) :=
  (dog_moving_transition.2 ⟨0, 0, 0⟩ (1 / 60)).1

/-- `PACK_SEPARATION` from `Dog.jsx`. -/
noncomputable def PACK_SEPARATION : ℝ := 55

/-- `PACK_SEPARATION_FORCE` from `Dog.jsx`. -/
noncomputable def PACK_SEPARATION_FORCE : ℝ := 22

/-- Pack-separation force (`Dog.jsx` lines 218–236): sum the normalized
away-vectors from every other pack member closer than `PACK_SEPARATION`,
average, and set the result's length to `PACK_SEPARATION_FORCE`. -/
noncomputable def packSeparation (pos : V3) (packPositions : List (Option V3))
    (selfId : ℕ) : V3 :=
  let acc := (List.range packPositions.length).foldl
    (fun (a : V3 × ℕ) i =>
      if i = selfId then a
      else
        match packPositions.getD i none with
        | none => a
        | some other =>
          let diff := v3sub pos other
          let dist := vlen3 diff
          if 0 < dist ∧ dist < PACK_SEPARATION then
            (v3add a.1 (v3scale (1 / dist) diff), a.2 + 1)
          else a)
    (⟨0, 0, 0⟩, 0)
  if acc.2 > 0 then v3setLength (v3scale (1 / (acc.2 : ℝ)) acc.1) PACK_SEPARATION_FORCE
  else ⟨0, 0, 0⟩

/-- One movement-physics tick of a dog (`Dog.jsx` lines 201–255): arrival-scaled
seek toward the current target (if any), pack separation, force clamping to
`50·delta`, Euler integration, then vertical terrain clamping and gravity
snapping.  The x/z coordinates receive no bounds clamp. -/
noncomputable def dogPhysicsStep (noise : ℝ → ℝ → ℝ) (pos vel : V3) (target : Option V3)
    (packPositions : List (Option V3)) (selfId : ℕ) (delta : ℝ) : V3 × V3 :=
  let desiredVelocity :=
    match target with
    | none => (⟨0, 0, 0⟩ : V3)
    | some t =>
      let steer := v3sub t pos
      let dist := vlen3 steer
      let dir := v3normalize steer
      let maxSpeed : ℝ := if dist < 10 then 32.0 * (dist / 10) else 32.0
      v3scale maxSpeed dir
  let separationForce := packSeparation pos packPositions selfId
  let steerForce := v3clampLength (v3add (v3sub desiredVelocity vel) separationForce)
    0 (50.0 * delta)
  let vel1 := v3add vel steerForce
  let pos1 := v3add pos (v3scale delta vel1)
  let groundH := getTerrainHeight noise pos1.x pos1.z
  let y1 := if pos1.y < groundH then groundH else pos1.y
  let y2 := y1 + (groundH - y1) * 0.2
  (⟨pos1.x, y2, pos1.z⟩, vel1)

/-- **C9 is false as stated**: an idle dog resting at `x = z = 1000` stays at
`x = 1000` after a movement tick — the integration step applies no `±320`
clamp to the dog's position. -/
theorem dog_step_unbounded_counterexample :
    ((dogPhysicsStep (fun _ _ => 0) ⟨1000, 0, 1000⟩ ⟨0, 0, 0⟩ none [] 0 (1 / 60)).1).x
      = 1000 ∧ ¬ ((1000 : ℝ) ≤ 320) := by
  constructor
  · have hsep : packSeparation ⟨1000, 0, 1000⟩ [] 0 = ⟨0, 0, 0⟩ := by
      rw [packSeparation]
      norm_num
    have hzero : v3add (v3sub ⟨0, 0, 0⟩ ⟨0, 0, 0⟩) (⟨0, 0, 0⟩ : V3) = ⟨0, 0, 0⟩ := by
      simp [v3add, v3sub]
    have hlen0 : vlen3 ⟨0, 0, 0⟩ = 0 := by
      simp [vlen3]
    have hclamp : v3clampLength ⟨0, 0, 0⟩ 0 (50.0 * (1 / 60)) = ⟨0, 0, 0⟩ := by
      rw [v3clampLength, v3setLength, v3normalize]
      simp only [hlen0, if_pos rfl]
      rw [clampR_of_nonpos _ _ le_rfl (by norm_num)]
      simp [v3scale]
    rw [dogPhysicsStep]
    simp only [hsep, hzero, hclamp]
    simp [v3add, v3scale, v3sub]
  · norm_num

/-- Incoming-command clamping (`Dog.jsx` lines 54–76): a new command target's
x and z are clamped to `[-320, 320]` before the dog starts moving toward it. -/
noncomputable def receiveCommand (c : V3) : V3 :=
  ⟨max (-320) (min 320 c.x), c.y, max (-320) (min 320 c.z)⟩

/-- **C9 (amended).** The `±320` clamp applies to the command *target* when a
command is received, not to the dog's position after a movement tick: every
received target satisfies the bounds, while the movement step itself leaves
x/z unclamped. -/
theorem command_target_clamped (c : V3) :
    -320 ≤ (receiveCommand c).x ∧ (receiveCommand c).x ≤ 320 ∧
    -320 ≤ (receiveCommand c).z ∧ (receiveCommand c).z ≤ 320 := by
  refine ⟨le_max_left _ _, ?_, le_max_left _ _, ?_⟩
  · exact max_le (by norm_num) (min_le_left _ _)
  · exact max_le (by norm_num) (min_le_left _ _)

end Nature
